import Mathlib

/-!
Verification of the nucleasim simulation engine (`src/app.js`).

The engine is embedded shallowly:
* a host numeric value is a rational (`JVal.num`) or a non-finite value
  (`JVal.nan`, standing for `NaN` / `±Infinity`, which no claim needs to
  distinguish);
* a JS object holding named scalar fields is an ordered association list,
  so key order and key sets are tracked exactly as `Object.keys` sees them;
* `undefined` reads are the `none` case of `Option`-valued lookups.
-/

namespace Nucleasim

/-- A host numeric value: either a finite number, modelled exactly as a
rational, or a non-finite value (`NaN` or an infinity). -/
inductive JVal where
  | num (q : ℚ)
  | nan
  deriving DecidableEq

/-- Host addition: finite + finite is finite; any non-finite operand makes
the result non-finite. -/
def jadd : JVal → JVal → JVal
  | .num a, .num b => .num (a + b)
  | _, _ => .nan

/-- Host subtraction. -/
def jsub : JVal → JVal → JVal
  | .num a, .num b => .num (a - b)
  | _, _ => .nan

/-- Host multiplication (exact rationals: finite products stay finite). -/
def jmul : JVal → JVal → JVal
  | .num a, .num b => .num (a * b)
  | _, _ => .nan

/-- Host negation. -/
def jneg : JVal → JVal
  | .num a => .num (-a)
  | .nan => .nan

/-- Host division. Division by zero yields a non-finite value. A non-finite
denominator is mapped to non-finite as well; no registered model ever divides
by a non-finite value, since every denominator in the model laws is a
parameter value. -/
def jdiv : JVal → JVal → JVal
  | .num a, .num b => if b = 0 then .nan else .num (a / b)
  | _, _ => .nan

abbrev Key := String

/-- A state object: a small mapping of named scalar fields, with the key
order of the host object. -/
abbrev State := List (Key × JVal)

/-- A parameter snapshot `{key: value}` as built by `getParams`. -/
abbrev Params := List (Key × ℚ)

/-- Reading `obj[key]`: `none` is `undefined`. -/
def lookupField (s : State) (k : Key) : Option JVal :=
  (s.find? (fun kv => kv.1 == k)).map (fun kv => kv.2)

/-- `Object.keys` of a state. -/
def keys (s : State) : List Key := s.map Prod.fst

/-- A field read by destructuring in a derivative or metric body: an absent
field reads as `undefined`, which any subsequent arithmetic turns into a
non-finite value. -/
def sval (s : State) (k : Key) : JVal := (lookupField s k).getD .nan

/-- A parameter read by destructuring: an absent key is `undefined`, which
any subsequent arithmetic turns into a non-finite value. -/
def pval (p : Params) (k : Key) : JVal :=
  match p.find? (fun kv => kv.1 == k) with
  | some kv => .num kv.2
  | none => .nan

/-- `a[key] + b[key]` where `b[key]` may be `undefined` (a missing key):
adding `undefined` gives `NaN`. -/
def jaddOpt (a : JVal) : Option JVal → JVal
  | some b => jadd a b
  | none => .nan

/-- `addState` (src/app.js lines 162-168): iterates over the keys of `a`
and adds the corresponding fields of `b`, building a fresh object. -/
def addState (a b : State) : State :=
  a.map (fun kv => (kv.1, jaddOpt kv.2 (lookupField b kv.1)))

/-- `scaleState` (src/app.js lines 170-176): multiplies every field of `a`
by the numeric `factor`, building a fresh object. -/
def scaleState (a : State) (factor : ℚ) : State :=
  a.map (fun kv => (kv.1, jmul kv.2 (.num factor)))

/-- `rk4Step` (src/app.js lines 150-160). -/
def rk4Step (stateObj : State) (params : Params) (t dt : ℚ)
    (derivativeFn : State → Params → ℚ → State) : State :=
  let k1 := derivativeFn stateObj params t
  let k2 := derivativeFn (addState stateObj (scaleState k1 (dt / 2))) params (t + dt / 2)
  let k3 := derivativeFn (addState stateObj (scaleState k2 (dt / 2))) params (t + dt / 2)
  let k4 := derivativeFn (addState stateObj (scaleState k3 dt)) params (t + dt)
  let combined := addState (addState k1 (scaleState k2 2)) (addState (scaleState k3 2) k4)
  addState stateObj (scaleState combined (dt / 6))

/-- The first RK4 stage evaluation of `rk4Step`. -/
def rk4K1 (s : State) (p : Params) (t _dt : ℚ)
    (f : State → Params → ℚ → State) : State := f s p t

/-- The second RK4 stage evaluation of `rk4Step`. -/
def rk4K2 (s : State) (p : Params) (t dt : ℚ)
    (f : State → Params → ℚ → State) : State :=
  f (addState s (scaleState (rk4K1 s p t dt f) (dt / 2))) p (t + dt / 2)

/-- The third RK4 stage evaluation of `rk4Step`. -/
def rk4K3 (s : State) (p : Params) (t dt : ℚ)
    (f : State → Params → ℚ → State) : State :=
  f (addState s (scaleState (rk4K2 s p t dt f) (dt / 2))) p (t + dt / 2)

/-- The fourth RK4 stage evaluation of `rk4Step`. -/
def rk4K4 (s : State) (p : Params) (t dt : ℚ)
    (f : State → Params → ℚ → State) : State :=
  f (addState s (scaleState (rk4K3 s p t dt f) dt)) p (t + dt)

/-- One declared tunable parameter of a model variant
(`{key, label, value, min, max, step}`). `value` is mutable (live edits). -/
structure Parameter where
  key : Key
  label : String
  value : ℚ
  min : ℚ
  max : ℚ
  step : ℚ
  deriving DecidableEq

/-- A model variant: display data, parameter schema, initial state and the
three behaviour functions. (The display-only `code` and `insights` strings
are omitted; they carry no behaviour.) -/
structure Model where
  name : String
  description : String
  parameters : List Parameter
  state : State
  derivatives : State → Params → ℚ → State
  metric : State → Params → JVal
  series : State → JVal × JVal

/-- Parameter schema of `models.spring` (src/app.js lines 23-28). -/
def springParameters : List Parameter :=
  [ { key := "mass", label := "Mass (kg)", value := 1.2, min := 0.2, max := 5, step := 0.1 },
    { key := "stiffness", label := "Spring k (N/m)", value := 12, min := 1, max := 40, step := 0.5 },
    { key := "damping", label := "Damping c", value := 0.6, min := 0.1, max := 3, step := 0.05 },
    { key := "force", label := "Driving Force", value := 1.8, min := 0, max := 6, step := 0.1 } ]

/-- `models.spring.derivatives` (src/app.js lines 30-36), parameterised by
the host sine function `hsin` (`Math.sin`). -/
def springDerivatives (hsin : ℚ → ℚ) (state : State) (params : Params) (t : ℚ) : State :=
  let x := sval state "x"
  let v := sval state "v"
  let mass := pval params "mass"
  let stiffness := pval params "stiffness"
  let damping := pval params "damping"
  let force := pval params "force"
  let drive := jmul force (.num (hsin (1.1 * t)))
  let a := jdiv (jadd (jsub (jmul (jneg stiffness) x) (jmul damping v)) drive) mass
  [("x", v), ("v", a)]

/-- `models.spring.metric` (src/app.js lines 37-42): total mechanical
energy. -/
def springMetric (state : State) (params : Params) : JVal :=
  let mass := pval params "mass"
  let stiffness := pval params "stiffness"
  let kinetic := jmul (jmul (jmul (.num 0.5) mass) (sval state "v")) (sval state "v")
  let potential := jmul (jmul (jmul (.num 0.5) stiffness) (sval state "x")) (sval state "x")
  jadd kinetic potential

/-- `models.spring.series` (src/app.js line 59). -/
def springSeries (state : State) : JVal × JVal := (sval state "x", sval state "v")

/-- `models.spring` (src/app.js lines 19-60), parameterised by the host
sine function. -/
def spring (hsin : ℚ → ℚ) : Model :=
  { name := "Mass-Spring-Damper",
    description := "Classic second-order dynamics with damping and harmonic forcing. Observe oscillations and energy dissipation.",
    parameters := springParameters,
    state := [("x", .num 1), ("v", .num 0)],
    derivatives := springDerivatives hsin,
    metric := springMetric,
    series := springSeries }

/-- Parameter schema of `models.predator` (src/app.js lines 65-70). -/
def predatorParameters : List Parameter :=
  [ { key := "alpha", label := "Prey Growth α", value := 1.1, min := 0.1, max := 3, step := 0.05 },
    { key := "beta", label := "Predation β", value := 0.4, min := 0.05, max := 2, step := 0.05 },
    { key := "delta", label := "Predator Gain δ", value := 0.3, min := 0.05, max := 2, step := 0.05 },
    { key := "gamma", label := "Predator Loss γ", value := 0.9, min := 0.1, max := 3, step := 0.05 } ]

/-- `models.predator.derivatives` (src/app.js lines 72-79). The source
function takes no time argument; the extra argument is ignored, as the host
ignores extra call arguments. -/
def predatorDerivatives (state : State) (params : Params) (_t : ℚ) : State :=
  let prey := sval state "prey"
  let predator := sval state "predator"
  let alpha := pval params "alpha"
  let beta := pval params "beta"
  let delta := pval params "delta"
  let gamma := pval params "gamma"
  [("prey", jsub (jmul alpha prey) (jmul (jmul beta prey) predator)),
   ("predator", jsub (jmul (jmul delta prey) predator) (jmul gamma predator))]

/-- `models.predator.metric` (src/app.js line 80); the source function
ignores the params argument. -/
def predatorMetric (state : State) (_params : Params) : JVal :=
  jadd (sval state "prey") (sval state "predator")

/-- `models.predator.series` (src/app.js line 97). -/
def predatorSeries (state : State) : JVal × JVal :=
  (sval state "prey", sval state "predator")

/-- `models.predator` (src/app.js lines 61-98). -/
def predator : Model :=
  { name := "Predator–Prey",
    description := "Lotka–Volterra dynamics describing coupled biological populations. Phase cycles emerge with tuned rates.",
    parameters := predatorParameters,
    state := [("prey", .num 1.4), ("predator", .num 0.8)],
    derivatives := predatorDerivatives,
    metric := predatorMetric,
    series := predatorSeries }

/-- Parameter schema of `models.thermal` (src/app.js lines 103-108). -/
def thermalParameters : List Parameter :=
  [ { key := "capA", label := "Capacitance A", value := 6, min := 1, max := 12, step := 0.5 },
    { key := "capB", label := "Capacitance B", value := 4.5, min := 1, max := 12, step := 0.5 },
    { key := "conduct", label := "Conductance", value := 1.6, min := 0.1, max := 5, step := 0.1 },
    { key := "heater", label := "Heater Input", value := 3.2, min := 0, max := 8, step := 0.1 } ]

/-- `models.thermal.derivatives` (src/app.js lines 110-119), parameterised
by the host sine function. -/
def thermalDerivatives (hsin : ℚ → ℚ) (state : State) (params : Params) (t : ℚ) : State :=
  let tempA := sval state "tempA"
  let tempB := sval state "tempB"
  let capA := pval params "capA"
  let capB := pval params "capB"
  let conduct := pval params "conduct"
  let heater := pval params "heater"
  let external := jadd (.num 1) (jmul (.num 0.6) (.num (hsin (0.4 * t))))
  let flux := jmul conduct (jsub tempB tempA)
  [("tempA", jdiv (jadd flux (jmul heater external)) capA),
   ("tempB", jdiv (jadd (jneg flux) (jmul (.num 0.4) external)) capB)]

/-- `models.thermal.metric` (src/app.js line 120). -/
def thermalMetric (state : State) (_params : Params) : JVal :=
  jdiv (jadd (sval state "tempA") (sval state "tempB")) (.num 2)

/-- `models.thermal.series` (src/app.js line 137). -/
def thermalSeries (state : State) : JVal × JVal :=
  (sval state "tempA", sval state "tempB")

/-- `models.thermal` (src/app.js lines 99-138). -/
def thermal (hsin : ℚ → ℚ) : Model :=
  { name := "Thermal Network",
    description := "Two-room thermal RC network with heat transfer and external gain. Adjust coupling for lag response.",
    parameters := thermalParameters,
    state := [("tempA", .num 2.2), ("tempB", .num 1.1)],
    derivatives := thermalDerivatives hsin,
    metric := thermalMetric,
    series := thermalSeries }

/-- `getParams` (src/app.js lines 216-222). -/
def getParams (m : Model) : Params :=
  m.parameters.map (fun param => (param.key, param.value))

/-- One history sample `{t, primary, secondary}` (src/app.js line 254). -/
structure Sample where
  t : ℚ
  primary : JVal
  secondary : JVal
  deriving DecidableEq

/-- The mutable run: the module-level globals `state`, `time`, `step`,
`running`, `history` (src/app.js lines 141-146), plus the displayed status
line (`canvasStatus.textContent`) and the displayed metric value
(`energyMetricEl`, pre-formatting). -/
structure Session where
  state : State
  time : ℚ
  step : ℕ
  running : Bool
  history : List Sample
  status : String
  metricDisplay : JVal
  deriving DecidableEq

/-- Status line written by `resetSimulation`. -/
def readyMessage : String :=
  "Ready to simulate. Click “Run Simulation” to stream results."

/-- Status line written by the run button handler. -/
def runningMessage : String := "Simulation running…"

/-- Status line written by `tick` on completion. -/
def completeMessage : String :=
  "Simulation complete. Adjust parameters or reset to run again."

/-- `resetSimulation` (src/app.js lines 224-237): reinitialises every piece
of session state from the active model, regardless of the prior session. -/
def resetSimulation (m : Model) (_s : Session) : Session :=
  { state := m.state,
    time := 0,
    step := 0,
    history := [],
    running := false,
    status := readyMessage,
    metricDisplay := m.metric m.state (getParams m) }

/-- The `history.push` / `length > 800` / `shift` sequence of `tick`
(src/app.js lines 254-257). -/
def historyPush (h : List Sample) (sample : Sample) : List Sample :=
  let pushed := h ++ [sample]
  if 800 < pushed.length then pushed.drop 1 else pushed

/-- `tick` (src/app.js lines 239-263), with the configured `dt` and
`horizon` read from the inputs passed explicitly. -/
def tick (m : Model) (dt horizon : ℚ) (s : Session) : Session :=
  if !s.running then s
  else if horizon ≤ s.time then
    { s with running := false, status := completeMessage }
  else
    let params := getParams m
    let state' := rk4Step s.state params s.time dt m.derivatives
    let time' := s.time + dt
    let sample : Sample :=
      { t := time', primary := (m.series state').1, secondary := (m.series state').2 }
    { state := state',
      time := time',
      step := s.step + 1,
      running := s.running,
      history := historyPush s.history sample,
      status := s.status,
      metricDisplay := m.metric state' params }

/-- The run button handler (src/app.js lines 316-324). -/
def runClick (s : Session) : Session :=
  if !s.running then { s with running := true, status := runningMessage } else s

/-- The session as the page loads, before the initial `resetSimulation`
call. -/
def emptySession : Session :=
  { state := [], time := 0, step := 0, running := false, history := [],
    status := "", metricDisplay := .nan }

/-- A freshly reset and started run of model `m`. -/
def startSession (m : Model) : Session := runClick (resetSimulation m emptySession)

/-- Replace the `value` of the first parameter whose `key` matches, as the
host mutates the object found by `find`. -/
def updateFirst (ps : List Parameter) (key : Key) (value : ℚ) : List Parameter :=
  match ps with
  | [] => []
  | p :: rest =>
      if p.key == key then { p with value := value } :: rest
      else p :: updateFirst rest key value

/-- The parameter edit handler (src/app.js lines 188-196): finds the edited
key among the active variant parameters and stores the raw numeric value on
it. An unknown key makes the handler throw: the lookup yields `undefined`
and the write to `param.value` is a type error. -/
def setParam (ps : List Parameter) (key : Key) (value : ℚ) : Except String (List Parameter) :=
  match ps.find? (fun item => item.key == key) with
  | none => .error "TypeError: cannot set value of undefined"
  | some _ => .ok (updateFirst ps key value)

/-- The all-zero delta on the field set of `s`: every field of `s` mapped
to `0`. -/
def zeroDelta (s : State) : State := s.map (fun kv => (kv.1, JVal.num 0))

/-- A running predator-prey session whose state has already degenerated to
non-finite values (as happens in the host under unstable parameter
choices). -/
def nanStateSession : Session :=
  { state := [("prey", JVal.nan), ("predator", JVal.nan)],
    time := 0, step := 0, running := true, history := [],
    status := runningMessage, metricDisplay := JVal.nan }

/-! ## Helper lemmas -/

theorem jadd_num_zero (v : JVal) : jadd v (.num 0) = v := by
  cases v <;> simp [jadd]

theorem jadd_assoc (a b c : JVal) : jadd (jadd a b) c = jadd a (jadd b c) := by
  cases a <;> cases b <;> cases c <;> simp [jadd, add_assoc]

theorem lookupField_mapVal (a : State) (g : Key → JVal → JVal) (k : Key) :
    lookupField (a.map (fun kv => (kv.1, g kv.1 kv.2))) k = (lookupField a k).map (g k) := by
  induction a with
  | nil => rfl
  | cons hd tl ih =>
    by_cases h : hd.1 = k
    · simp [lookupField, List.find?_cons, h]
    · simpa [lookupField, List.find?_cons, h] using ih

theorem lookupField_addState (a b : State) (k : Key) :
    lookupField (addState a b) k =
      (lookupField a k).map (fun va => jaddOpt va (lookupField b k)) :=
  lookupField_mapVal a (fun key v => jaddOpt v (lookupField b key)) k

theorem lookupField_scaleState (a : State) (c : ℚ) (k : Key) :
    lookupField (scaleState a c) k = (lookupField a k).map (fun v => jmul v (.num c)) :=
  lookupField_mapVal a (fun _ v => jmul v (.num c)) k

theorem lookupField_zeroDelta (s : State) (k : Key) :
    lookupField (zeroDelta s) k = (lookupField s k).map (fun _ => .num 0) :=
  lookupField_mapVal s (fun _ _ => .num 0) k

theorem keys_addState (a b : State) : keys (addState a b) = keys a := by
  simp [keys, addState]

theorem keys_scaleState (a : State) (c : ℚ) : keys (scaleState a c) = keys a := by
  simp [keys, scaleState]

theorem mem_keys_iff_lookupField (s : State) (k : Key) :
    k ∈ keys s ↔ ∃ v, lookupField s k = some v := by
  induction s with
  | nil => simp [keys, lookupField]
  | cons hd tl ih =>
    by_cases h : hd.1 = k
    · simp [keys, lookupField, List.find?_cons, h]
    · simpa [keys, lookupField, List.find?_cons, h, Ne.symm h] using ih

theorem lookupField_eq_none_of_not_mem {s : State} {k : Key} (h : k ∉ keys s) :
    lookupField s k = none := by
  by_contra hne
  exact h ((mem_keys_iff_lookupField s k).mpr
    ⟨(lookupField s k).get (Option.ne_none_iff_isSome.mp hne), by simp⟩)

theorem sval_eq_of_lookupField {s : State} {k : Key} {v : JVal}
    (h : lookupField s k = some v) : sval s k = v := by
  simp [sval, h]

theorem jmul_comm (a b : JVal) : jmul a b = jmul b a := by
  cases a <;> cases b <;> simp [jmul, mul_comm]

/-! ## Behaviour of one tick -/

theorem tick_not_running {m : Model} {dt horizon : ℚ} {s : Session}
    (h : s.running = false) : tick m dt horizon s = s := by
  simp [tick, h]

theorem tick_complete {m : Model} {dt horizon : ℚ} {s : Session}
    (h : s.running = true) (h2 : horizon ≤ s.time) :
    tick m dt horizon s = { s with running := false, status := completeMessage } := by
  simp [tick, h, h2]

theorem tick_advance {m : Model} {dt horizon : ℚ} {s : Session}
    (h : s.running = true) (h2 : ¬ horizon ≤ s.time) :
    tick m dt horizon s =
      { state := rk4Step s.state (getParams m) s.time dt m.derivatives,
        time := s.time + dt,
        step := s.step + 1,
        running := true,
        history := historyPush s.history
          { t := s.time + dt,
            primary := (m.series (rk4Step s.state (getParams m) s.time dt m.derivatives)).1,
            secondary := (m.series (rk4Step s.state (getParams m) s.time dt m.derivatives)).2 },
        status := s.status,
        metricDisplay :=
          m.metric (rk4Step s.state (getParams m) s.time dt m.derivatives) (getParams m) } := by
  unfold tick
  rw [if_neg (by simp [h]), if_neg h2, h]

theorem historyPush_eq_append {h : List Sample} (x : Sample) (hlt : h.length < 800) :
    historyPush h x = h ++ [x] := by
  simp only [historyPush]
  split
  · rename_i hcond
    simp only [List.length_append, List.length_cons, List.length_nil] at hcond
    omega
  · rfl

theorem historyPush_eq_drop {h : List Sample} (x : Sample) (hge : 800 ≤ h.length) :
    historyPush h x = (h ++ [x]).drop 1 := by
  simp only [historyPush]
  split
  · rfl
  · rename_i hcond
    simp only [List.length_append, List.length_cons, List.length_nil] at hcond
    omega

theorem historyPush_length_of_le {h : List Sample} (x : Sample) (hl : h.length ≤ 800) :
    (historyPush h x).length = min (h.length + 1) 800 := by
  rcases Nat.lt_or_ge h.length 800 with hlt | hge
  · rw [historyPush_eq_append x hlt]
    simp only [List.length_append, List.length_cons, List.length_nil]
    omega
  · rw [historyPush_eq_drop x hge]
    simp only [List.length_drop, List.length_append, List.length_cons, List.length_nil]
    omega

theorem historyPush_length_le {h : List Sample} (x : Sample) (hl : h.length ≤ 800) :
    (historyPush h x).length ≤ 800 := by
  rw [historyPush_length_of_le x hl]
  omega

theorem tick_history_length_le {m : Model} {dt horizon : ℚ} {s : Session}
    (hl : s.history.length ≤ 800) : (tick m dt horizon s).history.length ≤ 800 := by
  cases hr : s.running with
  | false => rw [tick_not_running hr]; exact hl
  | true =>
    by_cases h2 : horizon ≤ s.time
    · rw [tick_complete hr h2]; exact hl
    · rw [tick_advance hr h2]; exact historyPush_length_le _ hl

theorem foldl_historyPush_eq (xs : List Sample) (acc : List Sample)
    (hl : acc.length ≤ 800) :
    List.foldl historyPush acc xs = (acc ++ xs).drop (acc.length + xs.length - 800) := by
  induction xs generalizing acc with
  | nil => simp [Nat.sub_eq_zero_of_le hl]
  | cons x xs ih =>
    rw [List.foldl_cons]
    rcases Nat.lt_or_ge acc.length 800 with hlt | hge
    · rw [historyPush_eq_append x hlt]
      have hlen : (acc ++ [x]).length ≤ 800 := by
        simp only [List.length_append, List.length_cons, List.length_nil]
        omega
      rw [ih (acc ++ [x]) hlen]
      have harith : (acc ++ [x]).length + xs.length - 800 =
          acc.length + (x :: xs).length - 800 := by
        simp only [List.length_append, List.length_cons, List.length_nil]
        omega
      rw [harith, List.append_assoc, List.singleton_append]
    · have h800 : acc.length = 800 := Nat.le_antisymm hl hge
      rw [historyPush_eq_drop x hge]
      have hlen : ((acc ++ [x]).drop 1).length ≤ 800 := by
        simp only [List.length_drop, List.length_append, List.length_cons, List.length_nil]
        omega
      rw [ih ((acc ++ [x]).drop 1) hlen]
      have hone : (1 : ℕ) ≤ (acc ++ [x]).length := by
        simp only [List.length_append, List.length_cons, List.length_nil]
        omega
      rw [← List.drop_append_of_le_length hone, List.drop_drop]
      have harith2 : 1 + (((acc ++ [x]).drop 1).length + xs.length - 800) =
          acc.length + (x :: xs).length - 800 := by
        simp only [List.length_drop, List.length_append, List.length_cons, List.length_nil]
        omega
      rw [harith2, List.append_assoc, List.singleton_append]

theorem tick_nonpos_dt_iterate (m : Model) (dt horizon : ℚ) (s : Session)
    (hdt : dt ≤ 0) (hr : s.running = true) (ht : s.time < horizon) (n : ℕ) :
    ((tick m dt horizon)^[n] s).running = true ∧
    ((tick m dt horizon)^[n] s).step = s.step + n ∧
    ((tick m dt horizon)^[n] s).time = s.time + n * dt ∧
    (s.history.length ≤ 800 →
      ((tick m dt horizon)^[n] s).history.length = min (s.history.length + n) 800) := by
  induction n with
  | zero =>
    refine ⟨hr, by simp, ?_, fun hl => ?_⟩
    · simp only [Function.iterate_zero_apply, Nat.cast_zero, zero_mul, add_zero]
    · simp only [Function.iterate_zero_apply]
      omega
  | succ n ih =>
    obtain ⟨ihr, ihs, iht, ihh⟩ := ih
    have hmul : (n : ℚ) * dt ≤ 0 :=
      mul_nonpos_iff.mpr (Or.inl ⟨Nat.cast_nonneg n, hdt⟩)
    have hlt : ((tick m dt horizon)^[n] s).time < horizon := by
      rw [iht]; linarith
    rw [Function.iterate_succ_apply', tick_advance ihr (not_le.mpr hlt)]
    refine ⟨rfl, ?_, ?_, fun hl => ?_⟩
    · simp only [ihs]
      omega
    · simp only [iht]
      push_cast
      ring
    · have hlen : ((tick m dt horizon)^[n] s).history.length ≤ 800 := by
        rw [ihh hl]; omega
      rw [historyPush_length_of_le _ hlen, ihh hl]
      omega

/-! ## Zero-delta derivative laws -/

theorem lookupField_zeroDelta_of_mem {s : State} {kv : Key × JVal} (h : kv ∈ s) :
    lookupField (zeroDelta s) kv.1 = some (.num 0) := by
  have hk : kv.1 ∈ keys s := List.mem_map_of_mem Prod.fst h
  obtain ⟨v, hv⟩ := (mem_keys_iff_lookupField s kv.1).mp hk
  rw [lookupField_zeroDelta, hv]
  rfl

theorem addState_zeroDelta (s : State) : addState s (zeroDelta s) = s := by
  unfold addState
  refine (List.map_congr_left ?_).trans (List.map_id s)
  intro kv hkv
  rw [lookupField_zeroDelta_of_mem hkv]
  simp [jaddOpt, jadd_num_zero]

theorem scaleState_zeroDelta (s : State) (c : ℚ) :
    scaleState (zeroDelta s) c = zeroDelta s := by
  unfold scaleState zeroDelta
  simp [List.map_map, Function.comp, jmul]

theorem addState_zeroDelta_zeroDelta (s : State) :
    addState (zeroDelta s) (zeroDelta s) = zeroDelta s := by
  unfold addState
  refine (List.map_congr_left ?_).trans (List.map_id _)
  intro kv' hkv'
  obtain ⟨kv, hkv, rfl⟩ := List.mem_map.mp hkv'
  rw [lookupField_zeroDelta_of_mem hkv]
  simp [jaddOpt, jadd]

theorem rk4Step_of_zero_delta (s : State) (p : Params) (t dt : ℚ)
    (f : State → Params → ℚ → State) (hf : ∀ s' p' t', f s' p' t' = zeroDelta s') :
    rk4Step s p t dt f = s := by
  simp only [rk4Step, hf, scaleState_zeroDelta, addState_zeroDelta,
    addState_zeroDelta_zeroDelta]

/-- C9: if the derivative law always returns the all-zero delta, one
`rk4Step` — and hence any number of repeated steps — leaves the state
unchanged, for every state, parameter mapping, time and step size. -/
theorem rk4Step_zero_delta_fixed_point (s : State) (p : Params) (t dt : ℚ)
    (f : State → Params → ℚ → State)
    (hf : ∀ s' p' t', f s' p' t' = zeroDelta s') (n : ℕ) :
    rk4Step s p t dt f = s ∧ (fun s' => rk4Step s' p t dt f)^[n] s = s := by
  refine ⟨rk4Step_of_zero_delta s p t dt f hf, ?_⟩
  induction n with
  | zero => rfl
  | succ n ih =>
    rw [Function.iterate_succ_apply', ih]
    exact rk4Step_of_zero_delta s p t dt f hf

/-- C9 witness: the fixed-point theorem applied to a concrete state and the
concrete all-zero derivative law, for five repeated steps. -/
theorem rk4Step_zero_delta_fixed_point_witness :
    rk4Step [("x", JVal.num 3)] [] 0 1 (fun s' _ _ => zeroDelta s') = [("x", JVal.num 3)] ∧
    (fun s' => rk4Step s' [] 0 1 (fun s' _ _ => zeroDelta s'))^[5] [("x", JVal.num 3)] =
      [("x", JVal.num 3)] :=
  rk4Step_zero_delta_fixed_point [("x", JVal.num 3)] [] 0 1
    (fun s' _ _ => zeroDelta s') (fun _ _ _ => rfl) 5

/-- C7: `resetSimulation`, invoked from any session whatsoever (hence from
any status — Idle, Running, Paused or Completed), yields time 0, step 0,
the active variant's initial state, an empty history, and a cleared
running flag. -/
theorem resetSimulation_reinitializes (m : Model) (s : Session) :
    (resetSimulation m s).time = 0 ∧
    (resetSimulation m s).step = 0 ∧
    (resetSimulation m s).state = m.state ∧
    (resetSimulation m s).history = [] ∧
    (resetSimulation m s).running = false ∧
    (resetSimulation m s).status = readyMessage :=
  ⟨rfl, rfl, rfl, rfl, rfl, rfl⟩

/-- C10: `rk4Step` returns a state whose ordered field-name list is exactly
that of the input state — a field present in some derivative delta but
absent from the input never appears — and the input, being a value in this
embedding of the pure source functions, is not modified. -/
theorem rk4Step_preserves_key_set (stateObj : State) (params : Params) (t dt : ℚ)
    (derivativeFn : State → Params → ℚ → State) :
    keys (rk4Step stateObj params t dt derivativeFn) = keys stateObj ∧
    ∀ k, k ∉ keys stateObj →
      lookupField (rk4Step stateObj params t dt derivativeFn) k = none := by
  have hkeys : keys (rk4Step stateObj params t dt derivativeFn) = keys stateObj :=
    keys_addState stateObj _
  exact ⟨hkeys, fun k hk => lookupField_eq_none_of_not_mem (by rw [hkeys]; exact hk)⟩

/-- C10 witness: key-set preservation at a concrete state and a derivative
law that returns an extra, undeclared field. -/
theorem rk4Step_preserves_key_set_witness :
    keys (rk4Step [("x", JVal.num 1)] [] 0 1 (fun s _ _ => s ++ [("y", JVal.num 2)])) =
      keys [("x", JVal.num 1)] ∧
    lookupField (rk4Step [("x", JVal.num 1)] [] 0 1 (fun s _ _ => s ++ [("y", JVal.num 2)]))
      "y" = none :=
  ⟨(rk4Step_preserves_key_set [("x", JVal.num 1)] [] 0 1
      (fun s _ _ => s ++ [("y", JVal.num 2)])).1,
   (rk4Step_preserves_key_set [("x", JVal.num 1)] [] 0 1
      (fun s _ _ => s ++ [("y", JVal.num 2)])).2 "y" (by decide)⟩

/-- C1: `rk4Step` computes the classical 4-stage explicit Runge-Kutta
update. Writing `k1 = derivatives(state, params, t)`,
`k2 = derivatives(state + (dt/2)·k1, params, t + dt/2)`,
`k3 = derivatives(state + (dt/2)·k2, params, t + dt/2)` and
`k4 = derivatives(state + dt·k3, params, t + dt)` — the stage values
`rk4K1` … `rk4K4` — every named field of the returned state carries
`state + (dt/6)·(k1 + 2·k2 + 2·k3 + k4)` at that field, addition and
scaling being elementwise; the hypotheses record the model contract that
each stage delta carries the same key set as the state. -/
theorem rk4Step_is_classical_rk4 (stateObj : State) (params : Params) (t dt : ℚ)
    (derivativeFn : State → Params → ℚ → State) (k : Key) (v : JVal)
    (hv : lookupField stateObj k = some v)
    (h1 : keys (rk4K1 stateObj params t dt derivativeFn) = keys stateObj)
    (h2 : keys (rk4K2 stateObj params t dt derivativeFn) = keys stateObj)
    (h3 : keys (rk4K3 stateObj params t dt derivativeFn) = keys stateObj)
    (h4 : keys (rk4K4 stateObj params t dt derivativeFn) = keys stateObj) :
    lookupField (rk4Step stateObj params t dt derivativeFn) k =
      some (jadd v (jmul
        (jadd (jadd (jadd (sval (rk4K1 stateObj params t dt derivativeFn) k)
            (jmul (JVal.num 2) (sval (rk4K2 stateObj params t dt derivativeFn) k)))
            (jmul (JVal.num 2) (sval (rk4K3 stateObj params t dt derivativeFn) k)))
          (sval (rk4K4 stateObj params t dt derivativeFn) k))
        (JVal.num (dt / 6)))) := by
  have hk : k ∈ keys stateObj := (mem_keys_iff_lookupField stateObj k).mpr ⟨v, hv⟩
  obtain ⟨w1, hw1⟩ := (mem_keys_iff_lookupField (rk4K1 stateObj params t dt derivativeFn) k).mp
    (by rw [h1]; exact hk)
  obtain ⟨w2, hw2⟩ := (mem_keys_iff_lookupField (rk4K2 stateObj params t dt derivativeFn) k).mp
    (by rw [h2]; exact hk)
  obtain ⟨w3, hw3⟩ := (mem_keys_iff_lookupField (rk4K3 stateObj params t dt derivativeFn) k).mp
    (by rw [h3]; exact hk)
  obtain ⟨w4, hw4⟩ := (mem_keys_iff_lookupField (rk4K4 stateObj params t dt derivativeFn) k).mp
    (by rw [h4]; exact hk)
  have hrw : rk4Step stateObj params t dt derivativeFn =
      addState stateObj (scaleState
        (addState
          (addState (rk4K1 stateObj params t dt derivativeFn)
            (scaleState (rk4K2 stateObj params t dt derivativeFn) 2))
          (addState (scaleState (rk4K3 stateObj params t dt derivativeFn) 2)
            (rk4K4 stateObj params t dt derivativeFn)))
        (dt / 6)) := rfl
  rw [hrw, lookupField_addState, hv, lookupField_scaleState, lookupField_addState,
    lookupField_addState, lookupField_addState, lookupField_scaleState,
    lookupField_scaleState, hw1, hw2, hw3, hw4,
    sval_eq_of_lookupField hw1, sval_eq_of_lookupField hw2,
    sval_eq_of_lookupField hw3, sval_eq_of_lookupField hw4]
  simp only [Option.map_some', jaddOpt]
  rw [jmul_comm (JVal.num 2) w2, jmul_comm (JVal.num 2) w3, ← jadd_assoc]

/-- C1 witness: the theorem instantiated at a concrete one-field state with
the identity derivative law. -/
theorem rk4Step_is_classical_rk4_witness :
    lookupField (rk4Step [("x", JVal.num 1)] [] 0 1 (fun s _ _ => s)) "x" =
      some (jadd (JVal.num 1) (jmul
        (jadd (jadd (jadd (sval (rk4K1 [("x", JVal.num 1)] [] 0 1 (fun s _ _ => s)) "x")
            (jmul (JVal.num 2) (sval (rk4K2 [("x", JVal.num 1)] [] 0 1 (fun s _ _ => s)) "x")))
            (jmul (JVal.num 2) (sval (rk4K3 [("x", JVal.num 1)] [] 0 1 (fun s _ _ => s)) "x")))
          (sval (rk4K4 [("x", JVal.num 1)] [] 0 1 (fun s _ _ => s)) "x"))
        (JVal.num (1 / 6)))) :=
  rk4Step_is_classical_rk4 [("x", JVal.num 1)] [] 0 1 (fun s _ _ => s) "x" (JVal.num 1)
    rfl rfl rfl rfl rfl

/-- C3 counterexample: calling the integrator with a derivative law whose
delta keys differ from the state keys is not an error. With the delta
missing the state's field `x`, `rk4Step` silently returns the result state
`x ↦ NaN`; with the delta carrying the extra field `y`, the extra field is
silently dropped from the result. -/
theorem rk4Step_mismatch_counterexample :
    rk4Step [("x", JVal.num 1)] [] 0 1 (fun _ _ _ => [("y", JVal.num 2)]) =
      [("x", JVal.nan)] ∧
    keys (rk4Step [("x", JVal.num 1)] [] 0 1 (fun s _ _ => s ++ [("y", JVal.num 2)])) =
      ["x"] :=
  ⟨rfl, rfl⟩

/-- C3 (amended): a derivative delta whose keys differ from the state's is
not detected: `rk4Step` never fails, a state field missing from the first
stage delta comes back as the non-finite value `NaN` in the result state
(silent coercion), and result fields are exactly the state's fields, so
extra delta fields are silently dropped. -/
theorem rk4Step_mismatch_is_silent (stateObj : State) (params : Params) (t dt : ℚ)
    (f : State → Params → ℚ → State) (k : Key)
    (hk : k ∈ keys stateObj)
    (hmiss : k ∉ keys (f stateObj params t)) :
    lookupField (rk4Step stateObj params t dt f) k = some JVal.nan ∧
    keys (rk4Step stateObj params t dt f) = keys stateObj := by
  obtain ⟨v, hv⟩ := (mem_keys_iff_lookupField stateObj k).mp hk
  have hrw : rk4Step stateObj params t dt f =
      addState stateObj (scaleState
        (addState
          (addState (rk4K1 stateObj params t dt f)
            (scaleState (rk4K2 stateObj params t dt f) 2))
          (addState (scaleState (rk4K3 stateObj params t dt f) 2)
            (rk4K4 stateObj params t dt f)))
        (dt / 6)) := rfl
  constructor
  · have hnone : lookupField
        (addState
          (addState (rk4K1 stateObj params t dt f)
            (scaleState (rk4K2 stateObj params t dt f) 2))
          (addState (scaleState (rk4K3 stateObj params t dt f) 2)
            (rk4K4 stateObj params t dt f))) k = none := by
      refine lookupField_eq_none_of_not_mem ?_
      rw [keys_addState, keys_addState]
      exact hmiss
    rw [hrw, lookupField_addState, hv, lookupField_scaleState, hnone]
    rfl
  · rw [hrw, keys_addState]

/-- C3 witness: the silent-coercion theorem applied to a concrete state and
a derivative law returning a delta under the wrong key. -/
theorem rk4Step_mismatch_is_silent_witness :
    lookupField (rk4Step [("x", JVal.num 1)] [] 0 1 (fun _ _ _ => [("y", JVal.num 2)])) "x" =
      some JVal.nan ∧
    keys (rk4Step [("x", JVal.num 1)] [] 0 1 (fun _ _ _ => [("y", JVal.num 2)])) =
      keys [("x", JVal.num 1)] :=
  rk4Step_mismatch_is_silent [("x", JVal.num 1)] [] 0 1 (fun _ _ _ => [("y", JVal.num 2)])
    "x" (by decide) (by decide)

theorem find?_updateFirst {ps : List Parameter} {key : Key} {p : Parameter} (value : ℚ)
    (h : ps.find? (fun item => item.key == key) = some p) :
    (updateFirst ps key value).find? (fun item => item.key == key) =
      some { p with value := value } := by
  induction ps with
  | nil => simp at h
  | cons q rest ih =>
    by_cases hq : q.key == key
    · have hfind : List.find? (fun item => item.key == key) (q :: rest) = some q :=
        List.find?_cons_of_pos rest hq
      rw [hfind] at h
      have hqp : q = p := by injection h
      subst hqp
      simp only [updateFirst]
      rw [if_pos hq]
      exact (List.find?_cons_of_pos rest hq :
        List.find? (fun item => item.key == key)
          ({ q with value := value } :: rest) = some { q with value := value })
    · have hfind : List.find? (fun item => item.key == key) (q :: rest) =
          List.find? (fun item => item.key == key) rest :=
        List.find?_cons_of_neg rest hq
      rw [hfind] at h
      simp only [updateFirst]
      rw [if_neg hq]
      have hfind2 : List.find? (fun item => item.key == key)
          (q :: updateFirst rest key value) =
          List.find? (fun item => item.key == key) (updateFirst rest key value) :=
        List.find?_cons_of_neg _ hq
      rw [hfind2]
      exact ih h

/-- C4 counterexample: editing the declared parameter `mass` (bounds
`[0.2, 5]`) to `100` stores the raw value `100`, which lies outside the
declared bounds — the handler does not clamp. -/
theorem setParam_no_clamp_counterexample :
    setParam springParameters "mass" 100 =
      .ok [ { key := "mass", label := "Mass (kg)", value := 100, min := 0.2, max := 5, step := 0.1 },
            { key := "stiffness", label := "Spring k (N/m)", value := 12, min := 1, max := 40, step := 0.5 },
            { key := "damping", label := "Damping c", value := 0.6, min := 0.1, max := 3, step := 0.05 },
            { key := "force", label := "Driving Force", value := 1.8, min := 0, max := 6, step := 0.1 } ] ∧
    ¬ ((100 : ℚ) ≤ 5) :=
  ⟨rfl, by norm_num⟩

/-- C4 (amended): an edit whose key is not a declared parameter of the
active variant fails with an error; an edit of a declared parameter stores
the raw numeric value — without clamping it into the declared
`[min, max]` bounds — so stored values can lie outside their bounds. -/
theorem setParam_rejects_unknown_and_stores_raw (ps : List Parameter) (key : Key)
    (value : ℚ) :
    (ps.find? (fun item => item.key == key) = none →
      setParam ps key value = .error "TypeError: cannot set value of undefined") ∧
    ∀ p, ps.find? (fun item => item.key == key) = some p →
      setParam ps key value = .ok (updateFirst ps key value) ∧
      (updateFirst ps key value).find? (fun item => item.key == key) =
        some { p with value := value } := by
  constructor
  · intro h
    simp [setParam, h]
  · intro p hp
    exact ⟨by simp [setParam, hp], find?_updateFirst value hp⟩

/-- C4 witness: the edit theorem applied to the spring schema, at an
unknown key and at the declared key `mass` with the out-of-bounds value
`100`. -/
theorem setParam_rejects_unknown_and_stores_raw_witness :
    setParam springParameters "bogus" 1 = .error "TypeError: cannot set value of undefined" ∧
    (setParam springParameters "mass" 100 = .ok (updateFirst springParameters "mass" 100) ∧
     (updateFirst springParameters "mass" 100).find? (fun item => item.key == "mass") =
       some { key := "mass", label := "Mass (kg)", value := 100, min := 0.2, max := 5,
              step := 0.1 }) :=
  ⟨(setParam_rejects_unknown_and_stores_raw springParameters "bogus" 1).1 rfl,
   (setParam_rejects_unknown_and_stores_raw springParameters "mass" 100).2
     { key := "mass", label := "Mass (kg)", value := 1.2, min := 0.2, max := 5, step := 0.1 }
     rfl⟩

/-- C5: after any number of ticks from a session whose history respects
the bound (a fresh session starts empty), the history length stays at most
800; and folding more than 800 pushes into an empty buffer leaves exactly
the most recently pushed 800 samples, in push order. -/
theorem history_bounded_fifo (m : Model) (dt horizon : ℚ) (s : Session) (n : ℕ)
    (hs : s.history.length ≤ 800) :
    ((tick m dt horizon)^[n] s).history.length ≤ 800 ∧
    ∀ xs : List Sample, 800 < xs.length →
      List.foldl historyPush [] xs = xs.drop (xs.length - 800) := by
  constructor
  · induction n with
    | zero => simpa using hs
    | succ n ih =>
      rw [Function.iterate_succ_apply']
      exact tick_history_length_le ih
  · intro xs hxs
    have h := foldl_historyPush_eq xs [] (by simp)
    simpa using h

/-- C5 witness: the bound after three concrete ticks of the predator-prey
run, and exact FIFO contents after 801 pushes. -/
theorem history_bounded_fifo_witness :
    ((tick predator 0 1)^[3] (startSession predator)).history.length ≤ 800 ∧
    List.foldl historyPush []
        (List.replicate 801 ({ t := 0, primary := JVal.nan, secondary := JVal.nan } : Sample)) =
      (List.replicate 801 ({ t := 0, primary := JVal.nan, secondary := JVal.nan } : Sample)).drop
        ((List.replicate 801
          ({ t := 0, primary := JVal.nan, secondary := JVal.nan } : Sample)).length - 800) :=
  ⟨(history_bounded_fifo predator 0 1 (startSession predator) 3 (Nat.zero_le 800)).1,
   (history_bounded_fifo predator 0 1 (startSession predator) 3 (Nat.zero_le 800)).2
     (List.replicate 801 ({ t := 0, primary := JVal.nan, secondary := JVal.nan } : Sample))
     (by rw [List.length_replicate]; decide)⟩

/-- C2 counterexample: with `dt = 0 ≤ 0` and `horizon = 1 > 0`, a freshly
started predator-prey run does not execute zero steps and complete: after
three ticks the session is still running, has executed three integration
steps, has pushed three history samples, and the time has not advanced —
a zero-progress spin. -/
theorem tick_zero_dt_spin_counterexample :
    ((tick predator 0 1)^[3] (startSession predator)).step = 3 ∧
    ((tick predator 0 1)^[3] (startSession predator)).running = true ∧
    ((tick predator 0 1)^[3] (startSession predator)).history.length = 3 ∧
    ((tick predator 0 1)^[3] (startSession predator)).time = 0 := by
  obtain ⟨h1, h2, h3, h4⟩ := tick_nonpos_dt_iterate predator 0 1 (startSession predator)
    (le_refl 0) rfl
    (by rw [show (startSession predator).time = 0 from rfl]; norm_num) 3
  refine ⟨?_, h1, ?_, ?_⟩
  · rw [h2, show (startSession predator).step = 0 from rfl]
  · rw [h4 (by rw [show (startSession predator).history = ([] : List Sample) from rfl]; simp),
      show (startSession predator).history.length = 0 from rfl]
    decide
  · rw [h3, show (startSession predator).time = 0 from rfl]
    norm_num

/-- C2 (amended): a degenerate configuration is only half-handled. With
`horizon ≤ 0`, a started session at time 0 completes immediately and
nothing else changes — every tick chain of length at least 1 yields the
completed session, with zero steps executed and the history untouched.
But with `dt ≤ 0` while the time is still short of the horizon, the loop
never completes: every tick executes a full integration step, the step
count grows without bound, and the time never progresses past its start. -/
theorem tick_degenerate_config (m : Model) (dt horizon : ℚ) (s : Session) :
    (s.running = true → s.time = 0 → horizon ≤ 0 → ∀ n, 1 ≤ n →
      (tick m dt horizon)^[n] s =
        { s with running := false, status := completeMessage }) ∧
    (dt ≤ 0 → s.running = true → s.time < horizon → ∀ n,
      ((tick m dt horizon)^[n] s).running = true ∧
      ((tick m dt horizon)^[n] s).step = s.step + n ∧
      ((tick m dt horizon)^[n] s).time = s.time + n * dt) := by
  constructor
  · intro hr ht hh n hn
    have hc : tick m dt horizon s =
        { s with running := false, status := completeMessage } :=
      tick_complete hr (by rw [ht]; exact hh)
    obtain ⟨k, rfl⟩ : ∃ k, n = k + 1 := ⟨n - 1, by omega⟩
    induction k with
    | zero => simpa using hc
    | succ k ihk =>
      rw [Function.iterate_succ_apply', ihk (by omega)]
      exact tick_not_running rfl
  · intro hdt hr ht n
    obtain ⟨h1, h2, h3, _⟩ := tick_nonpos_dt_iterate m dt horizon s hdt hr ht n
    exact ⟨h1, h2, h3⟩

/-- C2 witness: the degenerate-configuration theorem applied with
`horizon = 0` (immediate completion after a two-tick chain) and with
`dt = 0, horizon = 1` (two ticks still running, two steps, no time
progress). -/
theorem tick_degenerate_config_witness :
    ((tick predator (1/20) 0)^[2] (startSession predator) =
      { startSession predator with running := false, status := completeMessage }) ∧
    (((tick predator 0 1)^[2] (startSession predator)).running = true ∧
     ((tick predator 0 1)^[2] (startSession predator)).step =
       (startSession predator).step + 2 ∧
     ((tick predator 0 1)^[2] (startSession predator)).time =
       (startSession predator).time + (2 : ℕ) * 0) :=
  ⟨(tick_degenerate_config predator (1/20) 0 (startSession predator)).1
     rfl rfl (le_refl 0) 2 (by norm_num),
   (tick_degenerate_config predator 0 1 (startSession predator)).2
     (le_refl 0) rfl
     (by rw [show (startSession predator).time = 0 from rfl]; norm_num) 2⟩

/-- C6 counterexample: a running session whose state has degenerated to
non-finite values is not flagged: one tick appends the non-finite sample
`⟨1/20, NaN, NaN⟩` to the history, surfaces `NaN` as the metric, and
leaves the session running with its status line untouched — no
error-flagged Completed status exists in the code. -/
theorem tick_nonfinite_counterexample :
    (tick predator (1/20) 5 nanStateSession).history =
      [{ t := 1/20, primary := JVal.nan, secondary := JVal.nan }] ∧
    (tick predator (1/20) 5 nanStateSession).running = true ∧
    (tick predator (1/20) 5 nanStateSession).metricDisplay = JVal.nan ∧
    (tick predator (1/20) 5 nanStateSession).status = runningMessage := by
  have hadv := @tick_advance predator (1/20) 5 nanStateSession rfl
    (by rw [show nanStateSession.time = 0 from rfl]; norm_num)
  rw [hadv]
  refine ⟨?_, rfl, rfl, rfl⟩
  rw [show nanStateSession.history = ([] : List Sample) from rfl,
    historyPush_eq_append _ (by simp)]
  have hp : (predator.series (rk4Step nanStateSession.state (getParams predator)
      nanStateSession.time (1/20) predator.derivatives)).1 = JVal.nan := rfl
  have hq : (predator.series (rk4Step nanStateSession.state (getParams predator)
      nanStateSession.time (1/20) predator.derivatives)).2 = JVal.nan := rfl
  rw [List.nil_append, hp, hq, show nanStateSession.time = (0 : ℚ) from rfl]
  norm_num [Sample.mk.injEq]

/-- C6 (amended): `tick` makes no finiteness check. Whatever values the
new state carries — finite or not — a running tick appends the projected
sample to the history, surfaces the freshly computed metric, keeps the
session running and leaves the status line unchanged; no error-flagged
completion path exists. -/
theorem tick_appends_without_finiteness_check (m : Model) (dt horizon : ℚ)
    (s : Session) (hr : s.running = true) (ht : s.time < horizon) :
    (tick m dt horizon s).running = true ∧
    (tick m dt horizon s).history = historyPush s.history
      { t := s.time + dt,
        primary := (m.series (rk4Step s.state (getParams m) s.time dt m.derivatives)).1,
        secondary := (m.series (rk4Step s.state (getParams m) s.time dt m.derivatives)).2 } ∧
    (tick m dt horizon s).metricDisplay =
      m.metric (rk4Step s.state (getParams m) s.time dt m.derivatives) (getParams m) ∧
    (tick m dt horizon s).status = s.status := by
  rw [tick_advance hr (not_le.mpr ht)]
  exact ⟨rfl, rfl, rfl, rfl⟩

/-- C6 witness: the no-finiteness-check theorem applied to the concrete
session whose state is entirely non-finite. -/
theorem tick_appends_without_finiteness_check_witness :
    (tick predator (1/20) 5 nanStateSession).running = true ∧
    (tick predator (1/20) 5 nanStateSession).history = historyPush nanStateSession.history
      { t := nanStateSession.time + 1/20,
        primary := (predator.series (rk4Step nanStateSession.state (getParams predator)
          nanStateSession.time (1/20) predator.derivatives)).1,
        secondary := (predator.series (rk4Step nanStateSession.state (getParams predator)
          nanStateSession.time (1/20) predator.derivatives)).2 } ∧
    (tick predator (1/20) 5 nanStateSession).metricDisplay =
      predator.metric (rk4Step nanStateSession.state (getParams predator)
        nanStateSession.time (1/20) predator.derivatives) (getParams predator) ∧
    (tick predator (1/20) 5 nanStateSession).status = nanStateSession.status :=
  tick_appends_without_finiteness_check predator (1/20) 5 nanStateSession rfl
    (by rw [show nanStateSession.time = 0 from rfl]; norm_num)

end Nucleasim
